import Mathlib

/-!
Verification of the web-search cache / rate-limiter core of the Nutrisense
repository (`tools/web_search_tool.py`): the `SearchCache` and `RateLimiter`
classes, the retry loop, and the `exa_web_search` facade.

Modelling conventions:
* Timestamps and durations are natural numbers counted in minutes, so
  `timedelta(hours=1)` is `60` and `ttl_hours` hours is `ttl_hours * 60`.
  `datetime.now()` is frozen for the duration of one call.
* The md5 hex digest of the lower-cased key is modelled by the lower-cased
  key itself: it is a deterministic fingerprint, and every claim below
  depends only on the key function being deterministic.
* `json.dumps` is modelled by a deterministic rendering `dumps` of the
  field list; claims depend only on the rendering being a function of
  the fields.
* Python exceptions from the provider are values: a provider is a map from
  attempt index to `Except`.
-/

namespace NutriSearch

/-- A processed web search result item as assembled by `exa_web_search`. -/
structure WebResult where
  title : String
  url : String
  content : String
  published_date : String
deriving DecidableEq, Repr

/-- A raw provider result (`exa_py` result object): `title` may be `None`,
`text` may be missing or empty, `published_date` may be missing. -/
structure RawResult where
  title : Option String
  url : String
  text : Option String
  published_date : Option String
deriving DecidableEq, Repr

/-- Python `str.lower()`, character by character. -/
def pyLower (s : String) : String := String.mk (s.data.map Char.toLower)

/-- Python `s[:n]`: character slice of the first `n` characters. -/
def pySlice (s : String) (n : Nat) : String := String.mk (s.data.take n)

/-- Python `str.strip()`: drop whitespace from both ends. -/
def pyStrip (s : String) : String :=
  String.mk (((s.data.dropWhile Char.isWhitespace).reverse.dropWhile
    Char.isWhitespace).reverse)

/-- Python `f"{b}"` for a bool renders `True` / `False`. -/
def pyBool (b : Bool) : String := if b then "True" else "False"

/-- `hashlib.md5(query.lower().encode()).hexdigest()`, with the digest
modelled by the lower-cased string itself (see the header comment). -/
def md5Key (query : String) : String := pyLower query

/-- A cache binding: key, stored value, `inserted_at` (minutes). -/
abbrev Entry := String × String × Nat

/-- Python dict lookup `self.cache[h]` on the association list. -/
def lookupKey : List Entry → String → Option (String × Nat)
  | [], _ => none
  | e :: rest, k => if e.1 = k then some e.2 else lookupKey rest k

/-- Python `del self.cache[h]`: dict keys are unique, so deleting the first
binding of `k` deletes the only one. -/
def eraseKey : List Entry → String → List Entry
  | [], _ => []
  | e :: rest, k => if e.1 = k then rest else e :: eraseKey rest k

/-- Python dict assignment `self.cache[h] = (result, now)`: replaces the
binding in place when the key is present, appends otherwise. -/
def setAssoc : List Entry → String → String → Nat → List Entry
  | [], k, v, ts => [(k, v, ts)]
  | e :: rest, k, v, ts =>
    if e.1 = k then (k, v, ts) :: rest else e :: setAssoc rest k v ts

/-- Python `min(self.cache.keys(), key=lambda k: self.cache[k][1])`: the
first entry in insertion order holding the minimal timestamp. -/
def minByTs : List Entry → Option Entry
  | [] => none
  | e :: rest =>
    match minByTs rest with
    | none => some e
    | some m => if m.2.2 < e.2.2 then some m else some e

/-- Whether the dict has a binding for `k`. -/
def containsKey (l : List Entry) (k : String) : Bool := l.any (fun e => e.1 = k)

/-- The `SearchCache` class state: `cache` dict, `max_size`, `ttl_hours`,
`last_cleanup`. -/
structure SearchCache where
  cache : List Entry
  max_size : Nat
  ttl_hours : Nat
  last_cleanup : Nat
deriving DecidableEq, Repr

/-- `SearchCache._cleanup_expired`: a no-op within one hour of the previous
sweep; otherwise removes every entry with `now - timestamp > ttl` and stamps
`last_cleanup = now`. -/
def SearchCache.cleanupExpired (c : SearchCache) (now : Nat) : SearchCache :=
  if now - c.last_cleanup < 60 then c
  else
    { c with
      cache := c.cache.filter (fun e => !(decide (c.ttl_hours * 60 < now - e.2.2)))
      last_cleanup := now }

/-- `SearchCache.get`: sweep, then look up the fingerprint of `query`; a
fresh hit returns the stored value, a found-but-expired entry is deleted
and `None` returned. -/
def SearchCache.get (c : SearchCache) (now : Nat) (query : String) :
    Option String × SearchCache :=
  let c1 := c.cleanupExpired now
  let h := md5Key query
  match lookupKey c1.cache h with
  | some (v, ts) =>
    if now - ts < c1.ttl_hours * 60 then (some v, c1)
    else (none, { c1 with cache := eraseKey c1.cache h })
  | none => (none, c1)

/-- The eviction step of `SearchCache.set`: when `len(cache) >= max_size`,
delete the entry with the minimal timestamp (in Python, `min` over an empty
dict raises, a state reachable only with `max_size = 0`; modelled as a
no-op there). -/
def evictIfFull (l : List Entry) (maxSize : Nat) : List Entry :=
  if maxSize ≤ l.length then
    match minByTs l with
    | some m => eraseKey l m.1
    | none => l
  else l

/-- `SearchCache.set`: sweep, evict when full, then bind the fingerprint of
`query` to `(result, now)`. -/
def SearchCache.set (c : SearchCache) (now : Nat) (query v : String) : SearchCache :=
  let c1 := c.cleanupExpired now
  { c1 with cache := setAssoc (evictIfFull c1.cache c1.max_size) (md5Key query) v now }

/-- The `RateLimiter` class state. -/
structure RateLimiter where
  max_requests : Nat
  window_minutes : Nat
  requests : List Nat
deriving DecidableEq, Repr

/-- `RateLimiter.can_make_request`: prune `requests` to the trailing window,
return whether the pruned count is below `max_requests`. -/
def RateLimiter.canMakeRequest (r : RateLimiter) (now : Nat) : Bool × RateLimiter :=
  let pruned := r.requests.filter (fun t => decide (now - t < r.window_minutes))
  (decide (pruned.length < r.max_requests), { r with requests := pruned })

/-- `RateLimiter.record_request`: append `now`. -/
def RateLimiter.recordRequest (r : RateLimiter) (now : Nat) : RateLimiter :=
  { r with requests := r.requests ++ [now] }

/-- A JSON value as it appears in the payloads built by `exa_web_search`. -/
inductive JVal where
  | str : String → JVal
  | nat : Nat → JVal
  | bool : Bool → JVal
  | results : List WebResult → JVal
deriving DecidableEq, Repr

/-- A JSON object: an ordered field list, as built by the Python dict
literals in `exa_web_search`. -/
abbrev JObj := List (String × JVal)

/-- Whether the object has a field named `k`. -/
def hasKey (o : JObj) (k : String) : Bool := o.any (fun f => f.1 = k)

/-- The value of the field named `k`, when present. -/
def getField (o : JObj) (k : String) : Option JVal :=
  (o.find? (fun f => f.1 = k)).map (fun f => f.2)

/-- Rendering of one result item inside `dumps`. -/
def dumpResult (r : WebResult) : String :=
  "title=" ++ r.title ++ ";url=" ++ r.url ++ ";content=" ++ r.content ++
    ";published_date=" ++ r.published_date

/-- Rendering of one JSON value inside `dumps`. -/
def dumpVal : JVal → String
  | .str s => s
  | .nat n => toString n
  | .bool b => if b then "true" else "false"
  | .results rs => String.intercalate "|" (rs.map dumpResult)

/-- `json.dumps`, modelled as a deterministic rendering of the field list
(see the header comment). Every rendering is a nonempty string, matching
the truthiness check `if cached_result:` in the facade. -/
def dumps (o : JObj) : String :=
  "json:" ++ String.intercalate "," (o.map (fun f => f.1 ++ "=" ++ dumpVal f.2))

/-- Payload of the empty-query validation failure (`InvalidInput`). -/
def invalidInputFields : JObj := [("error", .str "Search query cannot be empty")]

/-- Payload of the rate-limit denial (`RateLimited`). -/
def rateLimitedFields (q : String) : JObj :=
  [("error", .str "Rate limit exceeded. Please try again later."),
   ("query", .str q), ("cached", .bool false)]

/-- Payload of the missing-API-key failure (`ProviderUnavailable`). -/
def providerUnavailableFields : JObj :=
  [("error", .str "Exa API key not configured. Please add EXA_API_KEY to your environment variables.")]

/-- Payload of a successful search. -/
def successFields (q : String) (results : List WebResult) (now : Nat) : JObj :=
  [("status", .str "success"), ("query", .str q),
   ("num_results", .nat results.length), ("results", .results results),
   ("timestamp", .nat now), ("cached", .bool false)]

/-- Payload of the outer exception handler (`ProviderFailure`). -/
def providerFailureFields (q e : String) (now : Nat) : JObj :=
  [("status", .str "error"), ("error", .str ("Web search failed: " ++ e)),
   ("query", .str q), ("timestamp", .nat now), ("cached", .bool false)]

/-- The per-result processing loop of `exa_web_search`: truthiness checks on
`title` and `text`, character slices `[:200]` and `[:800]`, ellipsis when
the text is longer than 800 characters, defaults for missing fields. -/
def processResult (r : RawResult) : WebResult :=
  let content :=
    match r.text with
    | some t => if t = "" then "" else if 800 < t.length then pySlice t 800 ++ "..." else t
    | none => ""
  { title :=
      match r.title with
      | some t => if t = "" then "No title" else pySlice t 200
      | none => "No title"
    url := r.url
    content := if content = "" then "No content available" else content
    published_date := r.published_date.getD "Not available" }

/-- One provider interaction per attempt index: `.ok results` when the Exa
call returns, `.error e` when it raises. -/
abbrev Provider := Nat → Except String (List RawResult)

/-- Observable outcome of the retry loop: the final result, the backoff
delays slept (`2 ** attempt` each), and the number of attempts made. -/
structure RetryOutcome where
  result : Except String (List RawResult)
  delays : List Nat
  attempts : Nat
deriving Repr

/-- The body of `for attempt in range(max_retries)` with `rem` iterations
left: on success `break`; on failure sleep `2 ** attempt` and continue
unless this was the last attempt, in which case `raise e`. -/
def retryGo (provider : Provider) : Nat → Nat → RetryOutcome
  | _, 0 => { result := .error "", delays := [], attempts := 0 }
  | attempt, rem + 1 =>
    match provider attempt with
    | .ok res => { result := .ok res, delays := [], attempts := 1 }
    | .error e =>
      if rem = 0 then { result := .error e, delays := [], attempts := 1 }
      else
        let o := retryGo provider (attempt + 1) rem
        { result := o.result, delays := 2 ^ attempt :: o.delays, attempts := o.attempts + 1 }

/-- `max_retries = 3` in `exa_web_search`. -/
def max_retries : Nat := 3

/-- The whole retry loop of `exa_web_search`. -/
def runRetry (provider : Provider) : RetryOutcome := retryGo provider 0 max_retries

/-- The call environment: the frozen clock, whether `EXA_API_KEY` is set,
and the provider's behaviour per attempt. -/
structure SearchEnv where
  now : Nat
  apiKey : Bool
  provider : Provider

/-- Observable outcome of one `exa_web_search` call: the returned JSON
string, the new shared state, the number of provider attempts issued, the
backoff delays observed, and the number of rate-limiter admissions
recorded. -/
structure SearchCallResult where
  output : String
  cache : SearchCache
  limiter : RateLimiter
  providerCalls : Nat
  delays : List Nat
  recorded : Nat

/-- `min(max(num_results, 1), 10)`. -/
def clampNum (n : Int) : Int := min (max n 1) 10

/-- `cache_key = f"{query}_{num_results}_{include_content}"` (query already
stripped, `num_results` already clamped). -/
def cacheKeyOf (q : String) (nr : Int) (include_content : Bool) : String :=
  q ++ "_" ++ toString nr ++ "_" ++ pyBool include_content

/-- The cache-miss tail of `exa_web_search`: rate-limit check, API-key
check, admission recording, retry loop, result processing, response
assembly and caching, with the outer `except` turning an exhausted-retries
exception into the error payload. -/
def searchMiss (cache1 : SearchCache) (limiter : RateLimiter) (env : SearchEnv)
    (q ckey : String) : SearchCallResult :=
  let ck := limiter.canMakeRequest env.now
  if ck.1 = false then
    { output := dumps (rateLimitedFields q), cache := cache1, limiter := ck.2,
      providerCalls := 0, delays := [], recorded := 0 }
  else if env.apiKey = false then
    { output := dumps providerUnavailableFields, cache := cache1, limiter := ck.2,
      providerCalls := 0, delays := [], recorded := 0 }
  else
    let limiter2 := ck.2.recordRequest env.now
    let o := runRetry env.provider
    match o.result with
    | .ok raws =>
      let results := raws.map processResult
      let out := dumps (successFields q results env.now)
      { output := out, cache := cache1.set env.now ckey out, limiter := limiter2,
        providerCalls := o.attempts, delays := o.delays, recorded := 1 }
    | .error e =>
      { output := dumps (providerFailureFields q e env.now), cache := cache1,
        limiter := limiter2, providerCalls := o.attempts, delays := o.delays,
        recorded := 1 }

/-- `exa_web_search(query, num_results, include_content)` over explicit
shared state: validation, strip and clamp, cache lookup (with Python
truthiness on the cached string), then the miss path. -/
def exaWebSearch (cache : SearchCache) (limiter : RateLimiter) (env : SearchEnv)
    (query : String) (num_results : Int) (include_content : Bool) : SearchCallResult :=
  if pyStrip query = "" then
    { output := dumps invalidInputFields, cache := cache, limiter := limiter,
      providerCalls := 0, delays := [], recorded := 0 }
  else
    let q := pyStrip query
    let ckey := cacheKeyOf q (clampNum num_results) include_content
    let g := cache.get env.now ckey
    match g.1 with
    | some s =>
      if s = "" then searchMiss g.2 limiter env q ckey
      else
        { output := s, cache := g.2, limiter := limiter,
          providerCalls := 0, delays := [], recorded := 0 }
    | none => searchMiss g.2 limiter env q ckey

/-- A sequence of `set` operations, folded left over the cache state. -/
def applySets (c : SearchCache) : List (Nat × String × String) → SearchCache
  | [] => c
  | (t, q, v) :: rest => applySets (c.set t q v) rest

/-! ### Concrete fixtures used by witnesses -/

/-- An example raw provider result. -/
def rawExample : RawResult :=
  { title := some "Example", url := "u", text := some "body",
    published_date := some "2024-01-01" }

/-- A fresh cache with the constructor defaults (`max_size=100`, `ttl_hours=24`). -/
def cache0 : SearchCache := { cache := [], max_size := 100, ttl_hours := 24, last_cleanup := 0 }

/-- A fresh rate limiter with the constructor defaults. -/
def limiter0 : RateLimiter := { max_requests := 20, window_minutes := 60, requests := [] }

/-- An environment with a configured key and a provider that succeeds at
the first attempt. -/
def env0 : SearchEnv := { now := 0, apiKey := true, provider := fun _ => .ok [rawExample] }

/-- An environment whose provider fails on the first two attempts and
succeeds on the third. -/
def envRetry : SearchEnv :=
  { now := 0, apiKey := true,
    provider := fun j => if j < 2 then .error "boom" else .ok [rawExample] }

/-- A cache holding one entry that is already expired at time 100. -/
def cacheExp : SearchCache :=
  { cache := [("k", "v", 0)], max_size := 100, ttl_hours := 1, last_cleanup := 100 }

/-- A full two-entry cache (`max_size = 2`); the entry under "old" is the
oldest, the entry under "k" is newer. -/
def cacheC10 : SearchCache :=
  { cache := [("old", "a", 0), ("k", "b", 5)], max_size := 2, ttl_hours := 24,
    last_cleanup := 50 }

/-- A raw result whose text is 801 characters long. -/
def rawLong : RawResult :=
  { title := some "T", url := "u", text := some (String.mk (List.replicate 801 'a')),
    published_date := none }

/-! ### Association-list lemmas -/

theorem lookupKey_setAssoc_self (l : List Entry) (k v : String) (ts : Nat) :
    lookupKey (setAssoc l k v ts) k = some (v, ts) := by
  induction l with
  | nil => simp [setAssoc, lookupKey]
  | cons e rest ih =>
    by_cases h : e.1 = k
    · simp [setAssoc, h, lookupKey]
    · simp [setAssoc, h, lookupKey, ih]

theorem lookupKey_setAssoc_ne (l : List Entry) (k k1 v : String) (ts : Nat)
    (h : k1 ≠ k) : lookupKey (setAssoc l k v ts) k1 = lookupKey l k1 := by
  induction l with
  | nil => simp [setAssoc, lookupKey, Ne.symm h]
  | cons e rest ih =>
    by_cases h2 : e.1 = k
    · have h3 : k ≠ k1 := Ne.symm h
      have h4 : e.1 ≠ k1 := by rw [h2]; exact h3
      simp [setAssoc, h2, lookupKey, h3, h4]
    · simp [setAssoc, h2, lookupKey, ih]

theorem lookupKey_filter_setAssoc (l : List Entry) (k v : String) (ts : Nat)
    (p : Entry → Bool) (hp : p (k, v, ts) = true) :
    lookupKey ((setAssoc l k v ts).filter p) k = some (v, ts) := by
  induction l with
  | nil => simp [setAssoc, List.filter_cons, hp, lookupKey]
  | cons e rest ih =>
    by_cases h : e.1 = k
    · simp [setAssoc, h, List.filter_cons, hp, lookupKey]
    · by_cases hpe : p e = true
      · simp [setAssoc, h, List.filter_cons, hpe, lookupKey, ih]
      · simp only [Bool.not_eq_true] at hpe
        simp [setAssoc, h, List.filter_cons, hpe, ih]

theorem length_setAssoc_le (l : List Entry) (k v : String) (ts : Nat) :
    (setAssoc l k v ts).length ≤ l.length + 1 := by
  induction l with
  | nil => simp [setAssoc]
  | cons e rest ih =>
    by_cases h : e.1 = k
    · simp [setAssoc, h]
    · simp only [setAssoc, h, if_false, List.length_cons]
      omega

theorem containsKey_cons (e : Entry) (rest : List Entry) (k : String) :
    containsKey (e :: rest) k = (decide (e.1 = k) || containsKey rest k) := by
  simp [containsKey]

theorem length_setAssoc_of_contains (l : List Entry) (k v : String) (ts : Nat)
    (h : containsKey l k = true) : (setAssoc l k v ts).length = l.length := by
  induction l with
  | nil => simp [containsKey] at h
  | cons e rest ih =>
    rw [containsKey_cons] at h
    by_cases h2 : e.1 = k
    · simp [setAssoc, h2]
    · have h3 : containsKey rest k = true := by
        rcases Bool.or_eq_true_iff.mp h with h4 | h4
        · exact absurd (of_decide_eq_true h4) h2
        · exact h4
      simp [setAssoc, h2, ih h3]

theorem length_eraseKey_add_one (l : List Entry) (k : String)
    (h : containsKey l k = true) : (eraseKey l k).length + 1 = l.length := by
  induction l with
  | nil => simp [containsKey] at h
  | cons e rest ih =>
    rw [containsKey_cons] at h
    by_cases h2 : e.1 = k
    · simp [eraseKey, h2]
    · have h3 : containsKey rest k = true := by
        rcases Bool.or_eq_true_iff.mp h with h4 | h4
        · exact absurd (of_decide_eq_true h4) h2
        · exact h4
      have h4 := ih h3
      simp only [eraseKey, h2, if_false, List.length_cons]
      omega

theorem lookupKey_eq_none (l : List Entry) (k : String)
    (h : containsKey l k = false) : lookupKey l k = none := by
  induction l with
  | nil => simp [lookupKey]
  | cons e rest ih =>
    rw [containsKey_cons] at h
    rcases Bool.or_eq_false_iff.mp h with ⟨h1, h2⟩
    have h3 : e.1 ≠ k := by
      intro hh
      rw [hh] at h1
      simp at h1
    simp [lookupKey, h3, ih h2]

theorem containsKey_of_mem (l : List Entry) (m : Entry) (h : m ∈ l) :
    containsKey l m.1 = true := by
  induction l with
  | nil => simp at h
  | cons e rest ih =>
    rw [containsKey_cons]
    rcases List.mem_cons.mp h with h2 | h2
    · rw [h2]; simp
    · rw [ih h2]; simp

theorem containsKey_eraseKey_ne (l : List Entry) (k k1 : String) (h : k1 ≠ k) :
    containsKey (eraseKey l k) k1 = containsKey l k1 := by
  induction l with
  | nil => simp [eraseKey]
  | cons e rest ih =>
    by_cases h2 : e.1 = k
    · have h4 : (decide (k = k1)) = false := by simp [Ne.symm h]
      simp only [eraseKey, h2, if_true, containsKey_cons, h4, Bool.false_or]
    · simp only [eraseKey, h2, if_false, containsKey_cons, ih]

theorem containsKey_eq_keys_mem (l : List Entry) (k : String) :
    containsKey l k = true ↔ k ∈ l.map (fun e => e.1) := by
  induction l with
  | nil => simp [containsKey]
  | cons e rest ih =>
    rw [containsKey_cons]
    simp only [List.map_cons, List.mem_cons]
    constructor
    · intro h
      rcases Bool.or_eq_true_iff.mp h with h2 | h2
      · exact Or.inl (of_decide_eq_true h2).symm
      · exact Or.inr (ih.mp h2)
    · intro h
      rcases h with h2 | h2
      · simp [h2]
      · rw [ih.mpr h2]; simp

theorem lookupKey_eraseKey_self (l : List Entry) (k : String)
    (hnodup : (l.map (fun e => e.1)).Nodup) :
    lookupKey (eraseKey l k) k = none := by
  induction l with
  | nil => simp [eraseKey, lookupKey]
  | cons e rest ih =>
    simp only [List.map_cons, List.nodup_cons] at hnodup
    by_cases h2 : e.1 = k
    · have h3 : containsKey rest k = false := by
        by_contra hc
        have h4 : containsKey rest k = true := by
          cases h5 : containsKey rest k
          · exact absurd h5 hc
          · rfl
        exact hnodup.1 (h2 ▸ (containsKey_eq_keys_mem rest k).mp h4)
      simp only [eraseKey, h2, if_true]
      exact lookupKey_eq_none rest k h3
    · simp only [eraseKey, h2, if_false, lookupKey]
      simp [h2, ih hnodup.2]

/-! ### Lemmas about the minimum-timestamp choice -/

theorem minByTs_eq_none_iff (l : List Entry) : minByTs l = none ↔ l = [] := by
  cases l with
  | nil => simp [minByTs]
  | cons e rest =>
    simp only [minByTs]
    cases h : minByTs rest with
    | none => simp
    | some m =>
      by_cases h3 : m.2.2 < e.2.2 <;> simp [h3]

theorem minByTs_mem : ∀ {l : List Entry} {m : Entry}, minByTs l = some m → m ∈ l := by
  intro l
  induction l with
  | nil => intro m h; simp [minByTs] at h
  | cons e rest ih =>
    intro m h
    cases h2 : minByTs rest with
    | none =>
      simp only [minByTs, h2, Option.some.injEq] at h
      rw [← h]
      exact List.mem_cons_self e rest
    | some m2 =>
      simp only [minByTs, h2] at h
      by_cases h3 : m2.2.2 < e.2.2
      · rw [if_pos h3] at h
        simp only [Option.some.injEq] at h
        rw [← h]
        exact List.mem_cons_of_mem e (ih h2)
      · rw [if_neg h3] at h
        simp only [Option.some.injEq] at h
        rw [← h]
        exact List.mem_cons_self e rest

theorem minByTs_le : ∀ {l : List Entry} {m : Entry}, minByTs l = some m →
    ∀ e ∈ l, m.2.2 ≤ e.2.2 := by
  intro l
  induction l with
  | nil => intro m h; simp [minByTs] at h
  | cons e rest ih =>
    intro m h x hx
    cases h2 : minByTs rest with
    | none =>
      simp only [minByTs, h2, Option.some.injEq] at h
      have h4 : rest = [] := (minByTs_eq_none_iff rest).mp h2
      subst h4
      rcases List.mem_cons.mp hx with h5 | h5
      · rw [← h, h5]
      · simp at h5
    | some m2 =>
      simp only [minByTs, h2] at h
      by_cases h3 : m2.2.2 < e.2.2
      · rw [if_pos h3] at h
        simp only [Option.some.injEq] at h
        rcases List.mem_cons.mp hx with h5 | h5
        · rw [← h, h5]
          exact Nat.le_of_lt h3
        · rw [← h]
          exact ih h2 x h5
      · rw [if_neg h3] at h
        simp only [Option.some.injEq] at h
        rcases List.mem_cons.mp hx with h5 | h5
        · rw [← h, h5]
        · rw [← h]
          exact Nat.le_trans (Nat.le_of_not_lt h3) (ih h2 x h5)

theorem minByTs_ne_none (l : List Entry) (h : l ≠ []) : ∃ m, minByTs l = some m := by
  cases h2 : minByTs l with
  | none => exact absurd ((minByTs_eq_none_iff l).mp h2) h
  | some m => exact ⟨m, rfl⟩

/-! ### Cache state lemmas -/

@[simp] theorem cleanupExpired_max_size (c : SearchCache) (now : Nat) :
    (c.cleanupExpired now).max_size = c.max_size := by
  unfold SearchCache.cleanupExpired
  split <;> rfl

@[simp] theorem cleanupExpired_ttl_hours (c : SearchCache) (now : Nat) :
    (c.cleanupExpired now).ttl_hours = c.ttl_hours := by
  unfold SearchCache.cleanupExpired
  split <;> rfl

theorem cleanupExpired_length_le (c : SearchCache) (now : Nat) :
    (c.cleanupExpired now).cache.length ≤ c.cache.length := by
  unfold SearchCache.cleanupExpired
  split
  · exact Nat.le_refl _
  · exact List.length_filter_le _ _

@[simp] theorem set_max_size (c : SearchCache) (now : Nat) (q v : String) :
    (c.set now q v).max_size = c.max_size := by
  simp [SearchCache.set]

@[simp] theorem set_ttl_hours (c : SearchCache) (now : Nat) (q v : String) :
    (c.set now q v).ttl_hours = c.ttl_hours := by
  simp [SearchCache.set]

theorem set_cache_eq (c : SearchCache) (now : Nat) (q v : String) :
    (c.set now q v).cache =
      setAssoc (evictIfFull (c.cleanupExpired now).cache (c.cleanupExpired now).max_size)
        (md5Key q) v now := by
  simp [SearchCache.set]

@[simp] theorem get_snd_ttl_hours (c : SearchCache) (now : Nat) (q : String) :
    ((c.get now q).2).ttl_hours = c.ttl_hours := by
  unfold SearchCache.get
  cases h : lookupKey (c.cleanupExpired now).cache (md5Key q) with
  | none => simp [h]
  | some vt =>
    obtain ⟨v, ts⟩ := vt
    simp only [h]
    split <;> simp

theorem evictIfFull_of_lt (l : List Entry) (maxSize : Nat) (h : l.length < maxSize) :
    evictIfFull l maxSize = l := by
  unfold evictIfFull
  rw [if_neg (by omega)]

theorem evictIfFull_length_of_full (l : List Entry) (maxSize : Nat)
    (h1 : 1 ≤ maxSize) (h2 : maxSize ≤ l.length) :
    (evictIfFull l maxSize).length + 1 = l.length := by
  have hne : l ≠ [] := by
    intro hh
    subst hh
    simp at h2
    omega
  obtain ⟨m, hm⟩ := minByTs_ne_none l hne
  unfold evictIfFull
  rw [if_pos h2, hm]
  exact length_eraseKey_add_one l m.1 (containsKey_of_mem l m (minByTs_mem hm))

theorem set_cache_length_le (c : SearchCache) (now : Nat) (q v : String)
    (hm : 1 ≤ c.max_size) (hlen : c.cache.length ≤ c.max_size) :
    (c.set now q v).cache.length ≤ c.max_size := by
  have h1 : (c.cleanupExpired now).cache.length ≤ c.max_size :=
    Nat.le_trans (cleanupExpired_length_le c now) hlen
  rw [set_cache_eq, cleanupExpired_max_size]
  by_cases hfull : c.max_size ≤ (c.cleanupExpired now).cache.length
  · have h3 := length_setAssoc_le
      (evictIfFull (c.cleanupExpired now).cache c.max_size) (md5Key q) v now
    have h4 := evictIfFull_length_of_full (c.cleanupExpired now).cache c.max_size hm hfull
    omega
  · rw [evictIfFull_of_lt _ _ (Nat.lt_of_not_le hfull)]
    have h3 := length_setAssoc_le (c.cleanupExpired now).cache (md5Key q) v now
    omega

theorem applySets_invariant (ops : List (Nat × String × String)) :
    ∀ c : SearchCache, 1 ≤ c.max_size → c.cache.length ≤ c.max_size →
      (applySets c ops).max_size = c.max_size ∧
        (applySets c ops).cache.length ≤ c.max_size := by
  induction ops with
  | nil => intro c _ hlen; exact ⟨rfl, hlen⟩
  | cons op rest ih =>
    intro c hm hlen
    obtain ⟨t, q, v⟩ := op
    have h1 : (c.set t q v).max_size = c.max_size := set_max_size c t q v
    have h2 : (c.set t q v).cache.length ≤ c.max_size := set_cache_length_le c t q v hm hlen
    have h3 := ih (c.set t q v) (h1 ▸ hm) (h1 ▸ h2)
    exact ⟨h3.1.trans h1, h1 ▸ h3.2⟩

theorem lookupKey_cleanup_set (c : SearchCache) (now now2 : Nat) (k1 k2 v : String)
    (hk : md5Key k2 = md5Key k1) (h2 : now2 - now < c.ttl_hours * 60) :
    lookupKey ((c.set now k1 v).cleanupExpired now2).cache (md5Key k2) = some (v, now) := by
  rw [hk]
  unfold SearchCache.cleanupExpired
  split
  · rw [set_cache_eq]
    exact lookupKey_setAssoc_self _ _ _ _
  · simp only [set_cache_eq, set_ttl_hours]
    apply lookupKey_filter_setAssoc
    simp only [Bool.not_eq_true']
    simp only [decide_eq_false_iff_not]
    omega

theorem get_after_set (c : SearchCache) (now now2 : Nat) (k1 k2 v : String)
    (hk : md5Key k2 = md5Key k1) (h2 : now2 - now < c.ttl_hours * 60) :
    ((c.set now k1 v).get now2 k2).1 = some v := by
  simp only [SearchCache.get]
  rw [lookupKey_cleanup_set c now now2 k1 k2 v hk h2]
  simp only [cleanupExpired_ttl_hours, set_ttl_hours]
  rw [if_pos h2]

theorem get_of_ttl_zero (c : SearchCache) (now : Nat) (q : String)
    (h : c.ttl_hours = 0) : (c.get now q).1 = none := by
  unfold SearchCache.get
  cases h2 : lookupKey (c.cleanupExpired now).cache (md5Key q) with
  | none => simp [h2]
  | some vt =>
    obtain ⟨v, ts⟩ := vt
    have h3 : ¬ (now - ts < c.ttl_hours * 60) := by
      rw [h]
      simp
    simp [h2, h3]

/-! ### Facade path lemmas -/

theorem dumps_ne_empty (o : JObj) : dumps o ≠ "" := by
  intro h
  have h2 : (dumps o).length = 0 := by rw [h]; rfl
  unfold dumps at h2
  rw [String.length_append] at h2
  have h3 : ("json:" : String).length = 5 := rfl
  omega

theorem pyLower_append (a b : String) : pyLower (a ++ b) = pyLower a ++ pyLower b := by
  cases a with
  | mk da =>
    cases b with
    | mk db =>
      show String.mk ((da ++ db).map Char.toLower) = String.mk (da.map Char.toLower ++ db.map Char.toLower)
      rw [List.map_append]

theorem md5Key_cacheKeyOf_congr (q1 q2 : String) (nr : Int) (i : Bool)
    (h : pyLower q1 = pyLower q2) :
    md5Key (cacheKeyOf q1 nr i) = md5Key (cacheKeyOf q2 nr i) := by
  unfold md5Key cacheKeyOf
  simp only [pyLower_append, h]

theorem exaWebSearch_invalid (cache : SearchCache) (limiter : RateLimiter) (env : SearchEnv)
    (query : String) (n : Int) (i : Bool) (h : pyStrip query = "") :
    exaWebSearch cache limiter env query n i =
      { output := dumps invalidInputFields, cache := cache, limiter := limiter,
        providerCalls := 0, delays := [], recorded := 0 } := by
  simp [exaWebSearch, h]

theorem exaWebSearch_miss (cache : SearchCache) (limiter : RateLimiter) (env : SearchEnv)
    (query : String) (n : Int) (i : Bool) (h1 : ¬ pyStrip query = "")
    (h2 : (cache.get env.now (cacheKeyOf (pyStrip query) (clampNum n) i)).1 = none) :
    exaWebSearch cache limiter env query n i =
      searchMiss (cache.get env.now (cacheKeyOf (pyStrip query) (clampNum n) i)).2 limiter env
        (pyStrip query) (cacheKeyOf (pyStrip query) (clampNum n) i) := by
  simp [exaWebSearch, h1, h2]

theorem exaWebSearch_hit (cache : SearchCache) (limiter : RateLimiter) (env : SearchEnv)
    (query : String) (n : Int) (i : Bool) (s : String) (h1 : ¬ pyStrip query = "")
    (h2 : (cache.get env.now (cacheKeyOf (pyStrip query) (clampNum n) i)).1 = some s)
    (h3 : ¬ s = "") :
    exaWebSearch cache limiter env query n i =
      { output := s, cache := (cache.get env.now (cacheKeyOf (pyStrip query) (clampNum n) i)).2,
        limiter := limiter, providerCalls := 0, delays := [], recorded := 0 } := by
  simp [exaWebSearch, h1, h2, h3]

theorem searchMiss_rateLimited (cache1 : SearchCache) (limiter : RateLimiter) (env : SearchEnv)
    (q ckey : String) (h : (limiter.canMakeRequest env.now).1 = false) :
    searchMiss cache1 limiter env q ckey =
      { output := dumps (rateLimitedFields q), cache := cache1,
        limiter := (limiter.canMakeRequest env.now).2,
        providerCalls := 0, delays := [], recorded := 0 } := by
  simp [searchMiss, h]

theorem searchMiss_noKey (cache1 : SearchCache) (limiter : RateLimiter) (env : SearchEnv)
    (q ckey : String) (h1 : (limiter.canMakeRequest env.now).1 = true)
    (h2 : env.apiKey = false) :
    searchMiss cache1 limiter env q ckey =
      { output := dumps providerUnavailableFields, cache := cache1,
        limiter := (limiter.canMakeRequest env.now).2,
        providerCalls := 0, delays := [], recorded := 0 } := by
  simp [searchMiss, h1, h2]

theorem searchMiss_ok (cache1 : SearchCache) (limiter : RateLimiter) (env : SearchEnv)
    (q ckey : String) (raws : List RawResult)
    (h1 : (limiter.canMakeRequest env.now).1 = true) (h2 : env.apiKey = true)
    (h3 : (runRetry env.provider).result = .ok raws) :
    searchMiss cache1 limiter env q ckey =
      { output := dumps (successFields q (raws.map processResult) env.now),
        cache := cache1.set env.now ckey
          (dumps (successFields q (raws.map processResult) env.now)),
        limiter := ((limiter.canMakeRequest env.now).2).recordRequest env.now,
        providerCalls := (runRetry env.provider).attempts,
        delays := (runRetry env.provider).delays, recorded := 1 } := by
  simp [searchMiss, h1, h2, h3]

theorem searchMiss_err (cache1 : SearchCache) (limiter : RateLimiter) (env : SearchEnv)
    (q ckey : String) (e : String)
    (h1 : (limiter.canMakeRequest env.now).1 = true) (h2 : env.apiKey = true)
    (h3 : (runRetry env.provider).result = .error e) :
    searchMiss cache1 limiter env q ckey =
      { output := dumps (providerFailureFields q e env.now), cache := cache1,
        limiter := ((limiter.canMakeRequest env.now).2).recordRequest env.now,
        providerCalls := (runRetry env.provider).attempts,
        delays := (runRetry env.provider).delays, recorded := 1 } := by
  simp [searchMiss, h1, h2, h3]

/-! ### Retry loop lemmas -/

theorem retryGo_attempts_le (p : Provider) : ∀ (n a : Nat), (retryGo p a n).attempts ≤ n := by
  intro n
  induction n with
  | zero => intro a; simp [retryGo]
  | succ m ih =>
    intro a
    cases hp : p a with
    | ok r => simp [retryGo, hp]
    | error e =>
      by_cases hm : m = 0
      · subst hm
        simp [retryGo, hp]
      · have h2 := ih (a + 1)
        simp [retryGo, hp, hm]
        omega

theorem retryGo_attempts_pos (p : Provider) (n a : Nat) (h : 1 ≤ n) :
    1 ≤ (retryGo p a n).attempts := by
  cases n with
  | zero => omega
  | succ m =>
    cases hp : p a with
    | ok r => simp [retryGo, hp]
    | error e =>
      by_cases hm : m = 0
      · subst hm
        simp [retryGo, hp]
      · simp [retryGo, hp, hm]

theorem retryGo_delays_eq (p : Provider) : ∀ (n a : Nat),
    (retryGo p a n).delays =
      (List.range ((retryGo p a n).attempts - 1)).map (fun j => 2 ^ (a + j)) := by
  intro n
  induction n with
  | zero => intro a; simp [retryGo]
  | succ m ih =>
    intro a
    cases hp : p a with
    | ok r => simp [retryGo, hp]
    | error e =>
      by_cases hm : m = 0
      · subst hm
        simp [retryGo, hp]
      · have h2 := ih (a + 1)
        have h3 : 1 ≤ (retryGo p (a + 1) m).attempts :=
          retryGo_attempts_pos p m (a + 1) (by omega)
        obtain ⟨k, hk⟩ : ∃ k, (retryGo p (a + 1) m).attempts = k + 1 :=
          ⟨(retryGo p (a + 1) m).attempts - 1, by omega⟩
        simp only [retryGo, hp, hm, if_false]
        rw [h2, hk]
        simp only [Nat.add_sub_cancel]
        rw [List.range_succ_eq_map]
        simp only [List.map_cons, List.map_map]
        have hfun : ((fun j => 2 ^ (a + j)) ∘ Nat.succ) = fun j => 2 ^ (a + 1 + j) := by
          funext j
          simp only [Function.comp_apply]
          congr 1
          omega
        rw [hfun]
        simp

theorem runRetry_attempts_le (p : Provider) : (runRetry p).attempts ≤ 3 :=
  retryGo_attempts_le p 3 0

theorem runRetry_delays_eq (p : Provider) :
    (runRetry p).delays = (List.range ((runRetry p).attempts - 1)).map (fun j => 2 ^ j) := by
  have h := retryGo_delays_eq p 3 0
  simpa [runRetry, max_retries] using h

theorem retryGo_succ_eq (p : Provider) (attempt rem : Nat) :
    retryGo p attempt (rem + 1) =
      match p attempt with
      | .ok res => { result := .ok res, delays := [], attempts := 1 }
      | .error e =>
        if rem = 0 then { result := .error e, delays := [], attempts := 1 }
        else
          { result := (retryGo p (attempt + 1) rem).result,
            delays := 2 ^ attempt :: (retryGo p (attempt + 1) rem).delays,
            attempts := (retryGo p (attempt + 1) rem).attempts + 1 } := rfl

theorem runRetry_two_failures (p : Provider) (e0 e1 : String) (raws : List RawResult)
    (h0 : p 0 = .error e0) (h1 : p 1 = .error e1) (h2 : p 2 = .ok raws) :
    runRetry p = { result := .ok raws, delays := [1, 2], attempts := 3 } := by
  have q1 : retryGo p 2 1 = { result := .ok raws, delays := [], attempts := 1 } := by
    rw [show retryGo p 2 1 = _ from retryGo_succ_eq p 2 0, h2]
  have q2 : retryGo p 1 2 = { result := .ok raws, delays := [2], attempts := 2 } := by
    rw [show retryGo p 1 2 = _ from retryGo_succ_eq p 1 1, h1]
    simp [q1]
  have q3 : retryGo p 0 3 = { result := .ok raws, delays := [1, 2], attempts := 3 } := by
    rw [show retryGo p 0 3 = _ from retryGo_succ_eq p 0 2, h0]
    simp [q2]
  simpa [runRetry, max_retries] using q3

theorem runRetry_all_failures (p : Provider) (e0 e1 e2 : String)
    (h0 : p 0 = .error e0) (h1 : p 1 = .error e1) (h2 : p 2 = .error e2) :
    runRetry p = { result := .error e2, delays := [1, 2], attempts := 3 } := by
  have q1 : retryGo p 2 1 = { result := .error e2, delays := [], attempts := 1 } := by
    rw [show retryGo p 2 1 = _ from retryGo_succ_eq p 2 0, h2]
    simp
  have q2 : retryGo p 1 2 = { result := .error e2, delays := [2], attempts := 2 } := by
    rw [show retryGo p 1 2 = _ from retryGo_succ_eq p 1 1, h1]
    simp [q1]
  have q3 : retryGo p 0 3 = { result := .error e2, delays := [1, 2], attempts := 3 } := by
    rw [show retryGo p 0 3 = _ from retryGo_succ_eq p 0 2, h0]
    simp [q2]
  simpa [runRetry, max_retries] using q3

/-! ### Claim theorems -/

/-- C1: at the failing input — two identical calls against a working
provider, the second within the TTL window — the second call serves the
cache and returns the stored payload verbatim with zero provider calls,
but that payload's `cached` field is `false`, not `true`: the payload was
stored with `cached: false` and is returned unchanged, so a cache hit is
never tagged as served-from-cache. -/
theorem C1_cache_hit_payload_cached_field_false :
    (exaWebSearch (exaWebSearch cache0 limiter0 env0 "Nutrition" 5 true).cache
        (exaWebSearch cache0 limiter0 env0 "Nutrition" 5 true).limiter env0
        "Nutrition" 5 true).output
      = (exaWebSearch cache0 limiter0 env0 "Nutrition" 5 true).output ∧
    (exaWebSearch (exaWebSearch cache0 limiter0 env0 "Nutrition" 5 true).cache
        (exaWebSearch cache0 limiter0 env0 "Nutrition" 5 true).limiter env0
        "Nutrition" 5 true).providerCalls = 0 ∧
    (exaWebSearch cache0 limiter0 env0 "Nutrition" 5 true).output
      = dumps (successFields "Nutrition" [processResult rawExample] 0) ∧
    getField (successFields "Nutrition" [processResult rawExample] 0) "cached"
      = some (JVal.bool false) := by
  refine ⟨?_, ?_, ?_, ?_⟩ <;> rfl

/-- C2 counterexample: the empty-query failure path returns the payload
holding only an `error` field, which carries neither `query` nor
`timestamp`, refuting the claim that every failure payload carries both. -/
theorem C2_counterexample_invalid_payload_lacks_context :
    (exaWebSearch cache0 limiter0 env0 "" 5 true).output = dumps invalidInputFields ∧
    hasKey invalidInputFields "query" = false ∧
    hasKey invalidInputFields "timestamp" = false := by
  refine ⟨?_, ?_, ?_⟩ <;> rfl

/-- C2 (amended): every failure path returns a structured payload (the
embedding is a total function — nothing escapes the component boundary),
but only the ProviderFailure payload carries both `query` and `timestamp`;
the RateLimited payload carries `query` without `timestamp`, and the
InvalidInput and ProviderUnavailable payloads carry neither. -/
theorem C2_amended_failure_payloads (cache : SearchCache) (limiter : RateLimiter)
    (env : SearchEnv) (query : String) (n : Int) (i : Bool) (e : String) :
    (pyStrip query = "" →
      (exaWebSearch cache limiter env query n i).output = dumps invalidInputFields ∧
      hasKey invalidInputFields "query" = false ∧
      hasKey invalidInputFields "timestamp" = false) ∧
    (¬ pyStrip query = "" →
      (cache.get env.now (cacheKeyOf (pyStrip query) (clampNum n) i)).1 = none →
      ((limiter.canMakeRequest env.now).1 = false →
        (exaWebSearch cache limiter env query n i).output
          = dumps (rateLimitedFields (pyStrip query)) ∧
        hasKey (rateLimitedFields (pyStrip query)) "query" = true ∧
        hasKey (rateLimitedFields (pyStrip query)) "timestamp" = false) ∧
      ((limiter.canMakeRequest env.now).1 = true → env.apiKey = false →
        (exaWebSearch cache limiter env query n i).output = dumps providerUnavailableFields ∧
        hasKey providerUnavailableFields "query" = false ∧
        hasKey providerUnavailableFields "timestamp" = false) ∧
      ((limiter.canMakeRequest env.now).1 = true → env.apiKey = true →
        (runRetry env.provider).result = .error e →
        (exaWebSearch cache limiter env query n i).output
          = dumps (providerFailureFields (pyStrip query) e env.now) ∧
        hasKey (providerFailureFields (pyStrip query) e env.now) "query" = true ∧
        hasKey (providerFailureFields (pyStrip query) e env.now) "timestamp" = true)) := by
  constructor
  · intro h
    rw [exaWebSearch_invalid cache limiter env query n i h]
    exact ⟨rfl, rfl, rfl⟩
  · intro h1 h2
    refine ⟨?_, ?_, ?_⟩
    · intro h3
      rw [exaWebSearch_miss cache limiter env query n i h1 h2,
        searchMiss_rateLimited _ _ _ _ _ h3]
      exact ⟨rfl, rfl, rfl⟩
    · intro h3 h4
      rw [exaWebSearch_miss cache limiter env query n i h1 h2,
        searchMiss_noKey _ _ _ _ _ h3 h4]
      exact ⟨rfl, rfl, rfl⟩
    · intro h3 h4 h5
      rw [exaWebSearch_miss cache limiter env query n i h1 h2,
        searchMiss_err _ _ _ _ _ e h3 h4 h5]
      exact ⟨rfl, rfl, rfl⟩

/-- C2 witness: the rate-limited branch of the amended theorem at a
concrete denied limiter. -/
theorem C2_amended_failure_payloads_witness :
    (exaWebSearch cache0 { max_requests := 0, window_minutes := 60, requests := [] } env0
        "Carbs" 5 true).output = dumps (rateLimitedFields "Carbs") ∧
    hasKey (rateLimitedFields "Carbs") "query" = true ∧
    hasKey (rateLimitedFields "Carbs") "timestamp" = false :=
  ((C2_amended_failure_payloads cache0
      { max_requests := 0, window_minutes := 60, requests := [] } env0
      "Carbs" 5 true "").2 (by decide) rfl).1 rfl

/-- C5: `can_make_request` returns false exactly when the recorded
timestamps still inside the trailing window have reached `max_requests`;
it only prunes `requests` down to the in-window timestamps and records
nothing, while `record_request` appends the current time. -/
theorem C5_sliding_window_admission (r : RateLimiter) (now : Nat) :
    ((r.canMakeRequest now).1 = false ↔
      r.max_requests ≤
        (r.requests.filter (fun t => decide (now - t < r.window_minutes))).length) ∧
    ((r.canMakeRequest now).2).requests
      = r.requests.filter (fun t => decide (now - t < r.window_minutes)) ∧
    (r.recordRequest now).requests = r.requests ++ [now] := by
  refine ⟨?_, rfl, rfl⟩
  simp only [RateLimiter.canMakeRequest, decide_eq_false_iff_not, Nat.not_lt]

/-- C9: an empty or whitespace-only query fails with the InvalidInput
payload, issues zero provider calls, records zero rate-limiter admissions,
and leaves both shared states untouched. -/
theorem C9_empty_query_invalid_input (cache : SearchCache) (limiter : RateLimiter)
    (env : SearchEnv) (query : String) (n : Int) (i : Bool) (h : pyStrip query = "") :
    (exaWebSearch cache limiter env query n i).output = dumps invalidInputFields ∧
    (exaWebSearch cache limiter env query n i).providerCalls = 0 ∧
    (exaWebSearch cache limiter env query n i).recorded = 0 ∧
    (exaWebSearch cache limiter env query n i).cache = cache ∧
    (exaWebSearch cache limiter env query n i).limiter = limiter := by
  rw [exaWebSearch_invalid cache limiter env query n i h]
  exact ⟨rfl, rfl, rfl, rfl, rfl⟩

/-- C9 witness at the whitespace-only query. -/
theorem C9_empty_query_invalid_input_witness :
    (exaWebSearch cache0 limiter0 env0 "   " 5 true).output = dumps invalidInputFields ∧
    (exaWebSearch cache0 limiter0 env0 "   " 5 true).providerCalls = 0 ∧
    (exaWebSearch cache0 limiter0 env0 "   " 5 true).recorded = 0 ∧
    (exaWebSearch cache0 limiter0 env0 "   " 5 true).cache = cache0 ∧
    (exaWebSearch cache0 limiter0 env0 "   " 5 true).limiter = limiter0 :=
  C9_empty_query_invalid_input cache0 limiter0 env0 "   " 5 true rfl

theorem pySlice_length_le (s : String) (n : Nat) : (pySlice s n).length ≤ n := by
  show (s.data.take n).length ≤ n
  simp [List.length_take]

theorem append_ellipsis_ne_empty (s : String) : ¬ (s ++ "..." = "") := by
  intro h
  have h2 := congrArg String.length h
  rw [String.length_append] at h2
  have h3 : ("..." : String).length = 3 := rfl
  have h4 : ("" : String).length = 0 := rfl
  omega

/-- C3 counterexample: for a provider text of 801 characters, the returned
content is 803 characters long (the 800 kept characters plus the
3-character ellipsis), refuting the claimed 800-character bound on
`content`. -/
theorem C3_counterexample_content_exceeds_800 :
    800 < (processResult rawLong).content.length := by
  have hlen : (String.mk (List.replicate 801 'a')).length = 801 := by
    show (List.replicate 801 'a').length = 801
    rw [List.length_replicate]
  have ht : ¬ (String.mk (List.replicate 801 'a')) = "" := by
    intro hh
    have h5 := congrArg String.length hh
    rw [hlen] at h5
    have h6 : ("" : String).length = 0 := rfl
    omega
  have hl : 800 < (String.mk (List.replicate 801 'a')).length := by
    rw [hlen]
    omega
  have hc : (processResult rawLong).content
      = pySlice (String.mk (List.replicate 801 'a')) 800 ++ "..." := by
    simp only [rawLong, processResult, ht, if_false, hl, if_true,
      append_ellipsis_ne_empty (pySlice (String.mk (List.replicate 801 'a')) 800)]
  rw [hc, String.length_append]
  have h1 : (pySlice (String.mk (List.replicate 801 'a')) 800).length = 800 := by
    show ((List.replicate 801 'a').take 800).length = 800
    rw [List.length_take, List.length_replicate]
    omega
  have h2 : ("..." : String).length = 3 := rfl
  omega

/-- C3 (amended): each result's title is at most 200 characters and its
content at most 803 characters: when the text exceeds 800 characters the
content is its first 800 characters plus the 3-character ellipsis (up to
803 characters total), otherwise a nonempty text is returned unchanged;
a nonempty title is truncated to its first 200 characters independently. -/
theorem C3_amended_per_field_truncation (r : RawResult) :
    (processResult r).title.length ≤ 200 ∧
    (processResult r).content.length ≤ 803 ∧
    (∀ t, r.text = some t → 800 < t.length →
      (processResult r).content = pySlice t 800 ++ "...") ∧
    (∀ t, r.text = some t → ¬ t = "" → t.length ≤ 800 → (processResult r).content = t) ∧
    (∀ t, r.title = some t → ¬ t = "" → (processResult r).title = pySlice t 200) := by
  obtain ⟨ot, u, ox, od⟩ := r
  refine ⟨?_, ?_, ?_, ?_, ?_⟩
  · simp only [processResult]
    cases ot with
    | none => decide
    | some t =>
      by_cases ht : t = ""
      · simp only [ht, if_true]
        decide
      · simp only [ht, if_false]
        exact pySlice_length_le t 200
  · simp only [processResult]
    cases ox with
    | none => decide
    | some t =>
      by_cases ht : t = ""
      · simp only [ht, if_true]
        decide
      · by_cases hl : 800 < t.length
        · simp only [ht, if_false, hl, if_true,
            append_ellipsis_ne_empty (pySlice t 800)]
          rw [String.length_append]
          have h1 := pySlice_length_le t 800
          have h2 : ("..." : String).length = 3 := rfl
          omega
        · simp only [ht, if_false, hl]
          have h1 : t.length ≤ 800 := Nat.le_of_not_lt hl
          omega
  · intro t hte hl
    subst hte
    have ht : ¬ t = "" := by
      intro hh
      subst hh
      simp at hl
    simp only [processResult, ht, if_false, hl, if_true,
      append_ellipsis_ne_empty (pySlice t 800)]
  · intro t hte ht hl
    subst hte
    have hl2 : ¬ 800 < t.length := Nat.not_lt.mpr hl
    simp only [processResult, ht, if_false, hl2, ite_false]
  · intro t hte ht
    subst hte
    simp only [processResult, ht, if_false]

/-- C3 witness at the 801-character text. -/
theorem C3_amended_per_field_truncation_witness :
    (processResult rawLong).title.length ≤ 200 ∧
    (processResult rawLong).content.length ≤ 803 ∧
    (processResult rawLong).content
      = pySlice (String.mk (List.replicate 801 'a')) 800 ++ "..." := by
  obtain ⟨a, b, c, -, -⟩ := C3_amended_per_field_truncation rawLong
  refine ⟨a, b, c (String.mk (List.replicate 801 'a')) rfl ?_⟩
  show 800 < (List.replicate 801 'a').length
  rw [List.length_replicate]
  omega

/-- C4: starting from any cache within capacity (with `max_size ≥ 1`, as
in every constructed instance), an arbitrary sequence of `set` operations
keeps `|entries| ≤ max_size`; and whenever an insertion happens while the
post-sweep cache is at or above capacity, the entry removed is exactly one
whose `inserted_at` is minimal — FIFO by insertion age. -/
theorem C4_capacity_bound_and_fifo_eviction (c : SearchCache)
    (ops : List (Nat × String × String)) (hm : 1 ≤ c.max_size)
    (hlen : c.cache.length ≤ c.max_size) :
    (applySets c ops).cache.length ≤ c.max_size ∧
    (∀ now q v, c.max_size ≤ (c.cleanupExpired now).cache.length →
      ∃ m, minByTs (c.cleanupExpired now).cache = some m ∧
        m ∈ (c.cleanupExpired now).cache ∧
        (∀ e ∈ (c.cleanupExpired now).cache, m.2.2 ≤ e.2.2) ∧
        (c.set now q v).cache =
          setAssoc (eraseKey (c.cleanupExpired now).cache m.1) (md5Key q) v now) := by
  constructor
  · exact (applySets_invariant ops c hm hlen).2
  · intro now q v hfull
    have hne : (c.cleanupExpired now).cache ≠ [] := by
      intro hh
      rw [hh] at hfull
      simp at hfull
      omega
    obtain ⟨m, hmin⟩ := minByTs_ne_none _ hne
    refine ⟨m, hmin, minByTs_mem hmin, minByTs_le hmin, ?_⟩
    rw [set_cache_eq]
    unfold evictIfFull
    rw [cleanupExpired_max_size, if_pos hfull, hmin]

/-- C4 witness at the default empty cache and a single insertion. -/
theorem C4_capacity_bound_and_fifo_eviction_witness :
    (applySets cache0 [(0, "q", "v")]).cache.length ≤ cache0.max_size ∧
    (∀ now q v, cache0.max_size ≤ (cache0.cleanupExpired now).cache.length →
      ∃ m, minByTs (cache0.cleanupExpired now).cache = some m ∧
        m ∈ (cache0.cleanupExpired now).cache ∧
        (∀ e ∈ (cache0.cleanupExpired now).cache, m.2.2 ≤ e.2.2) ∧
        (cache0.set now q v).cache =
          setAssoc (eraseKey (cache0.cleanupExpired now).cache m.1) (md5Key q) v now) :=
  C4_capacity_bound_and_fifo_eviction cache0 [(0, "q", "v")] (by decide) (by decide)

/-- C7: `get` never returns an expired entry: any returned value comes
from an entry with `now - inserted_at < ttl`; a found-but-expired entry is
deleted and absent returned; with `ttl = 0` a `get` on a just-inserted key
returns absent. -/
theorem C7_get_never_returns_expired (c : SearchCache) (now : Nat) (q : String) :
    (∀ v, (c.get now q).1 = some v →
      ∃ ts, lookupKey (c.cleanupExpired now).cache (md5Key q) = some (v, ts) ∧
        now - ts < c.ttl_hours * 60) ∧
    (∀ v ts, lookupKey (c.cleanupExpired now).cache (md5Key q) = some (v, ts) →
      ¬ (now - ts < c.ttl_hours * 60) →
      ((c.cleanupExpired now).cache.map (fun e => e.1)).Nodup →
      ((c.get now q).1 = none ∧
        lookupKey ((c.get now q).2).cache (md5Key q) = none)) ∧
    (∀ t1 t2 k v, c.ttl_hours = 0 → ((c.set t1 k v).get t2 k).1 = none) := by
  refine ⟨?_, ?_, ?_⟩
  · intro v hv
    cases hl : lookupKey (c.cleanupExpired now).cache (md5Key q) with
    | none =>
      simp only [SearchCache.get, hl] at hv
      exact absurd hv (by simp)
    | some vt =>
      obtain ⟨v2, ts⟩ := vt
      by_cases hfresh : now - ts < c.ttl_hours * 60
      · simp only [SearchCache.get, hl, cleanupExpired_ttl_hours, if_pos hfresh] at hv
        simp only [Option.some.injEq] at hv
        subst hv
        exact ⟨ts, rfl, hfresh⟩
      · simp only [SearchCache.get, hl, cleanupExpired_ttl_hours, if_neg hfresh] at hv
        exact absurd hv (by simp)
  · intro v ts hl hexp hnodup
    constructor
    · simp only [SearchCache.get, hl, cleanupExpired_ttl_hours, if_neg hexp]
    · simp only [SearchCache.get, hl, cleanupExpired_ttl_hours, if_neg hexp]
      exact lookupKey_eraseKey_self _ _ hnodup
  · intro t1 t2 k v h
    exact get_of_ttl_zero _ _ _ (by rw [set_ttl_hours]; exact h)

/-- C7 witness at a cache holding an expired entry. -/
theorem C7_get_never_returns_expired_witness :
    (cacheExp.get 100 "k").1 = none ∧
    lookupKey ((cacheExp.get 100 "k").2).cache (md5Key "k") = none :=
  (C7_get_never_returns_expired cacheExp 100 "k").2.1 "v" 0 rfl (by decide) (by decide)

/-- C10: a `set` of an already-present key while the cache is full still
evicts the minimal-timestamp entry: when the post-sweep cache is exactly at
`max_size`, the written key is present, and the oldest entry's key differs
from it, the oldest entry disappears, the written key is rebound to the new
value, and the cache ends strictly below `max_size`. -/
theorem C10_full_cache_overwrite_still_evicts (c : SearchCache) (now : Nat)
    (q v : String) (m : Entry)
    (hfull : (c.cleanupExpired now).cache.length = c.max_size)
    (hmin : minByTs (c.cleanupExpired now).cache = some m)
    (hpresent : containsKey (c.cleanupExpired now).cache (md5Key q) = true)
    (hne : ¬ m.1 = md5Key q)
    (hnodup : ((c.cleanupExpired now).cache.map (fun e => e.1)).Nodup) :
    lookupKey (c.set now q v).cache m.1 = none ∧
    lookupKey (c.set now q v).cache (md5Key q) = some (v, now) ∧
    (c.set now q v).cache.length + 1 = c.max_size ∧
    (c.set now q v).cache.length < c.max_size := by
  have hcache : (c.set now q v).cache
      = setAssoc (eraseKey (c.cleanupExpired now).cache m.1) (md5Key q) v now := by
    rw [set_cache_eq]
    unfold evictIfFull
    rw [cleanupExpired_max_size, if_pos (Nat.le_of_eq hfull.symm), hmin]
  have hcontE : containsKey (eraseKey (c.cleanupExpired now).cache m.1) (md5Key q) = true := by
    rw [containsKey_eraseKey_ne _ _ _ (fun hh => hne hh.symm)]
    exact hpresent
  have hcm : containsKey (c.cleanupExpired now).cache m.1 = true :=
    containsKey_of_mem _ m (minByTs_mem hmin)
  have h1 : (eraseKey (c.cleanupExpired now).cache m.1).length + 1
      = (c.cleanupExpired now).cache.length := length_eraseKey_add_one _ _ hcm
  have h2 : (c.set now q v).cache.length
      = (eraseKey (c.cleanupExpired now).cache m.1).length := by
    rw [hcache]
    exact length_setAssoc_of_contains _ _ _ _ hcontE
  refine ⟨?_, ?_, by omega, by omega⟩
  · rw [hcache, lookupKey_setAssoc_ne _ _ _ _ _ hne]
    exact lookupKey_eraseKey_self _ _ hnodup
  · rw [hcache]
    exact lookupKey_setAssoc_self _ _ _ _

/-- C10 witness at a full two-entry cache whose newer key is overwritten. -/
theorem C10_full_cache_overwrite_still_evicts_witness :
    lookupKey (cacheC10.set 50 "K" "v").cache "old" = none ∧
    lookupKey (cacheC10.set 50 "K" "v").cache (md5Key "K") = some ("v", 50) ∧
    (cacheC10.set 50 "K" "v").cache.length + 1 = cacheC10.max_size ∧
    (cacheC10.set 50 "K" "v").cache.length < cacheC10.max_size :=
  C10_full_cache_overwrite_still_evicts cacheC10 50 "K" "v" ("old", "a", 0)
    (by decide) (by decide) (by decide) (by decide) (by decide)

/-- C6: queries normalizing to the same key are served from the cache
within the TTL window. At the cache level, a `set` followed by a `get`
under the same fingerprint before expiry returns the stored value
unchanged; at the facade level, after a first successful search, a second
search whose stripped query is a case variant of the first (identical
`num_results` and `include_content`) within the TTL window returns the
byte-identical stored payload, issues zero provider calls and records no
admission. -/
theorem C6_same_key_within_ttl_serves_cache
    (c : SearchCache) (t1 t2 : Nat) (k1 k2 v : String)
    (cache : SearchCache) (limiter : RateLimiter) (env1 env2 : SearchEnv)
    (q1 q2 : String) (n : Int) (i : Bool) (raws : List RawResult)
    (hkey : md5Key k2 = md5Key k1) (hfresh : t2 - t1 < c.ttl_hours * 60)
    (htrim1 : ¬ pyStrip q1 = "") (htrim2 : ¬ pyStrip q2 = "")
    (hlow : pyLower (pyStrip q2) = pyLower (pyStrip q1))
    (hmiss : (cache.get env1.now (cacheKeyOf (pyStrip q1) (clampNum n) i)).1 = none)
    (hcan : (limiter.canMakeRequest env1.now).1 = true)
    (hapi : env1.apiKey = true)
    (hok : (runRetry env1.provider).result = .ok raws)
    (hwindow : env2.now - env1.now < cache.ttl_hours * 60) :
    ((c.set t1 k1 v).get t2 k2).1 = some v ∧
    (exaWebSearch (exaWebSearch cache limiter env1 q1 n i).cache
        (exaWebSearch cache limiter env1 q1 n i).limiter env2 q2 n i).output
      = (exaWebSearch cache limiter env1 q1 n i).output ∧
    (exaWebSearch (exaWebSearch cache limiter env1 q1 n i).cache
        (exaWebSearch cache limiter env1 q1 n i).limiter env2 q2 n i).providerCalls = 0 ∧
    (exaWebSearch (exaWebSearch cache limiter env1 q1 n i).cache
        (exaWebSearch cache limiter env1 q1 n i).limiter env2 q2 n i).recorded = 0 := by
  refine ⟨get_after_set c t1 t2 k1 k2 v hkey hfresh, ?_⟩
  have hr1 : exaWebSearch cache limiter env1 q1 n i
      = { output := dumps (successFields (pyStrip q1) (raws.map processResult) env1.now),
          cache := ((cache.get env1.now (cacheKeyOf (pyStrip q1) (clampNum n) i)).2).set
            env1.now (cacheKeyOf (pyStrip q1) (clampNum n) i)
            (dumps (successFields (pyStrip q1) (raws.map processResult) env1.now)),
          limiter := ((limiter.canMakeRequest env1.now).2).recordRequest env1.now,
          providerCalls := (runRetry env1.provider).attempts,
          delays := (runRetry env1.provider).delays, recorded := 1 } := by
    rw [exaWebSearch_miss cache limiter env1 q1 n i htrim1 hmiss,
      searchMiss_ok _ _ _ _ _ raws hcan hapi hok]
  have hhit : ((((cache.get env1.now (cacheKeyOf (pyStrip q1) (clampNum n) i)).2).set
      env1.now (cacheKeyOf (pyStrip q1) (clampNum n) i)
      (dumps (successFields (pyStrip q1) (raws.map processResult) env1.now))).get
      env2.now (cacheKeyOf (pyStrip q2) (clampNum n) i)).1
      = some (dumps (successFields (pyStrip q1) (raws.map processResult) env1.now)) := by
    apply get_after_set
    · exact md5Key_cacheKeyOf_congr _ _ _ _ hlow
    · rw [get_snd_ttl_hours]
      exact hwindow
  have hr2 : exaWebSearch (exaWebSearch cache limiter env1 q1 n i).cache
      (exaWebSearch cache limiter env1 q1 n i).limiter env2 q2 n i
      = { output := dumps (successFields (pyStrip q1) (raws.map processResult) env1.now),
          cache := (((exaWebSearch cache limiter env1 q1 n i).cache).get env2.now
            (cacheKeyOf (pyStrip q2) (clampNum n) i)).2,
          limiter := (exaWebSearch cache limiter env1 q1 n i).limiter,
          providerCalls := 0, delays := [], recorded := 0 } := by
    rw [hr1]
    exact exaWebSearch_hit _ _ env2 q2 n i _ htrim2 hhit (dumps_ne_empty _)
  rw [hr2, hr1]
  exact ⟨rfl, rfl, rfl⟩

/-- C6 witness: the same query up to case and surrounding whitespace,
issued twice at the same instant. -/
theorem C6_same_key_within_ttl_serves_cache_witness :
    ((cache0.set 0 "K" "v").get 0 "k").1 = some "v" ∧
    (exaWebSearch (exaWebSearch cache0 limiter0 env0 "Apple" 5 true).cache
        (exaWebSearch cache0 limiter0 env0 "Apple" 5 true).limiter env0
        " APPLE " 5 true).output
      = (exaWebSearch cache0 limiter0 env0 "Apple" 5 true).output ∧
    (exaWebSearch (exaWebSearch cache0 limiter0 env0 "Apple" 5 true).cache
        (exaWebSearch cache0 limiter0 env0 "Apple" 5 true).limiter env0
        " APPLE " 5 true).providerCalls = 0 ∧
    (exaWebSearch (exaWebSearch cache0 limiter0 env0 "Apple" 5 true).cache
        (exaWebSearch cache0 limiter0 env0 "Apple" 5 true).limiter env0
        " APPLE " 5 true).recorded = 0 :=
  C6_same_key_within_ttl_serves_cache cache0 0 0 "K" "k" "v" cache0 limiter0 env0 env0
    "Apple" " APPLE " 5 true [rawExample] (by decide) (by decide) (by decide) (by decide)
    (by decide) rfl rfl rfl rfl (by decide)

/-- C8: the retry wrapper attempts the provider call at most 3 times,
sleeping `2 ** attempt` time units between consecutive attempts (delays
`[2^0, ..., 2^(attempts-2)]`); when the provider fails twice and succeeds
at the third attempt, the facade returns success built from the third
attempt's data with exactly the two backoff delays `[1, 2]` observed; only
when all three attempts fail is the last error surfaced. -/
theorem C8_retry_with_exponential_backoff (cache : SearchCache) (limiter : RateLimiter)
    (env : SearchEnv) (p : Provider) (query : String) (n : Int) (i : Bool)
    (e0 e1 e2 : String) (raws : List RawResult) :
    (runRetry p).attempts ≤ 3 ∧
    (runRetry p).delays = (List.range ((runRetry p).attempts - 1)).map (fun j => 2 ^ j) ∧
    (p 0 = .error e0 → p 1 = .error e1 → p 2 = .error e2 →
      (runRetry p).result = .error e2) ∧
    (¬ pyStrip query = "" →
      (cache.get env.now (cacheKeyOf (pyStrip query) (clampNum n) i)).1 = none →
      (limiter.canMakeRequest env.now).1 = true → env.apiKey = true →
      env.provider 0 = .error e0 → env.provider 1 = .error e1 →
      env.provider 2 = .ok raws →
      (exaWebSearch cache limiter env query n i).output
        = dumps (successFields (pyStrip query) (raws.map processResult) env.now) ∧
      (exaWebSearch cache limiter env query n i).delays = [1, 2] ∧
      (exaWebSearch cache limiter env query n i).providerCalls = 3) := by
  refine ⟨runRetry_attempts_le p, runRetry_delays_eq p, ?_, ?_⟩
  · intro h0 h1 h2
    rw [runRetry_all_failures p e0 e1 e2 h0 h1 h2]
  · intro ht hm hc hk h0 h1 h2
    have hr := runRetry_two_failures env.provider e0 e1 raws h0 h1 h2
    rw [exaWebSearch_miss cache limiter env query n i ht hm,
      searchMiss_ok _ _ _ _ _ raws hc hk (by rw [hr])]
    refine ⟨rfl, ?_, ?_⟩ <;> rw [hr]

/-- C8 witness: the fail-fail-succeed provider. -/
theorem C8_retry_with_exponential_backoff_witness :
    (exaWebSearch cache0 limiter0 envRetry "Protein" 5 true).output
      = dumps (successFields (pyStrip "Protein") ([rawExample].map processResult) 0) ∧
    (exaWebSearch cache0 limiter0 envRetry "Protein" 5 true).delays = [1, 2] ∧
    (exaWebSearch cache0 limiter0 envRetry "Protein" 5 true).providerCalls = 3 :=
  (C8_retry_with_exponential_backoff cache0 limiter0 envRetry envRetry.provider
    "Protein" 5 true "boom" "boom" "" [rawExample]).2.2.2
    (by decide) rfl rfl rfl rfl rfl rfl

end NutriSearch
